import Mathlib

/-!
A verification development for the Shopify store-insights extraction pipeline.

The Python sources (`services/shopify_scraper.py`, `services/content_extractor.py`,
`utils/helpers.py`, `models.py`) are shallowly embedded below.  Pure string
manipulation is translated function-by-function; DOM queries (BeautifulSoup
`find`/`find_all` results) are modelled as the data those queries return, and
HTTP fetches are modelled as explicit fetch-result parameters.  Character
classes follow the ASCII behaviour of the Python regexes involved.  All
definitions are structurally recursive so that they evaluate by kernel
reduction on concrete inputs.
-/

namespace StoreInsights

/-- Python whitespace for `str.split()` / `str.strip()` / regex `\s` (ASCII part):
space, tab, newline, carriage return, vertical tab, form feed. -/
def isPySpace (c : Char) : Bool :=
  c = ' ' || c = '\t' || c = '\n' || c = '\r' || c = Char.ofNat 11 || c = Char.ofNat 12

/-- Python `str.lower()` (ASCII behaviour). -/
def pyLower (s : String) : String :=
  ⟨s.data.map Char.toLower⟩

/-- Python `str.strip()` on a character list: drop whitespace from both ends. -/
def pyStripL (cs : List Char) : List Char :=
  ((cs.dropWhile isPySpace).reverse.dropWhile isPySpace).reverse

/-- Python `str.strip()`. -/
def pyStrip (s : String) : String :=
  ⟨pyStripL s.data⟩

/-- Python `str.split()` with no argument (worker): maximal runs of
non-whitespace characters, surrounding whitespace discarded; `acc` holds the
reversed current run. -/
def splitWsAcc (acc : List Char) : List Char → List (List Char)
  | [] => if acc = [] then [] else [acc.reverse]
  | c :: cs =>
    if isPySpace c then
      if acc = [] then splitWsAcc [] cs else acc.reverse :: splitWsAcc [] cs
    else
      splitWsAcc (c :: acc) cs

/-- Python `str.split()` with no argument. -/
def splitWs (cs : List Char) : List (List Char) :=
  splitWsAcc [] cs

/-- Python `' '.join(words)`. -/
def joinWords : List (List Char) → List Char
  | [] => []
  | [w] => w
  | w :: ws => w ++ ' ' :: joinWords ws

/-- `' '.join(text.split())` from `clean_text`: collapse whitespace runs to
single spaces and drop leading/trailing whitespace. -/
def collapseWs (cs : List Char) : List Char :=
  joinWords (splitWs cs)

/-- Character class of the HTML-entity regex `&[a-zA-Z0-9#]+;` in `clean_text`. -/
def entChar (c : Char) : Bool :=
  c.isAlpha || c.isDigit || c = '#'

/-- `re.sub(r'&[a-zA-Z0-9#]+;', '', text)` from `clean_text` (fuelled worker;
the fuel is an upper bound on the number of characters still to scan).  The
regex matches at a `&` exactly when the maximal entity-character run after it
is nonempty and immediately followed by `;` (since `;` is not an entity
character, backtracking cannot produce a shorter match), and `re.sub` deletes
each such leftmost match and resumes after it. -/
def removeEntitiesF : Nat → List Char → List Char
  | 0, cs => cs
  | _ + 1, [] => []
  | fuel + 1, c :: cs =>
    if c = '&' ∧ cs.takeWhile entChar ≠ [] ∧
        (cs.drop (cs.takeWhile entChar).length).head? = some ';' then
      removeEntitiesF fuel (cs.drop (cs.takeWhile entChar).length).tail
    else
      c :: removeEntitiesF fuel cs

/-- `re.sub(r'&[a-zA-Z0-9#]+;', '', text)` from `clean_text`. -/
def removeEntities (cs : List Char) : List Char :=
  removeEntitiesF cs.length cs

/-- Python regex `\w` (ASCII behaviour): letters, digits, underscore. -/
def isWordChar (c : Char) : Bool :=
  c.isAlpha || c.isDigit || c = '_'

/-- The allow-list of `re.sub(r'[^\w\s\.\,\?\!\-\:\;\(\)\[\]\'\"\/\@\#\$\%\&\*\+\=]', '', text)`
in `clean_text`: word characters, whitespace, and the fixed punctuation set. -/
def keepChar (c : Char) : Bool :=
  isWordChar c || isPySpace c ||
    c ∈ ['.', ',', '?', '!', '-', ':', ';', '(', ')', '[', ']',
         '\'', '\"', '/', '@', '#', '$', '%', '&', '*', '+', '=']

/-- `utils/helpers.py` `clean_text`: empty input short-circuits; otherwise
whitespace is collapsed, HTML entities removed, non-allow-listed characters
removed, and the result stripped. -/
def clean_text (s : String) : String :=
  if s = "" then ""
  else ⟨pyStripL ((removeEntities (collapseWs s.data)).filter keepChar)⟩

example : clean_text "  hello   world " = "hello world" := by decide
example : clean_text "a &amp; b" = "a  b" := by decide
example : clean_text (clean_text "a &amp; b") = "a b" := by decide
example : clean_text "a ^ b" = "a  b" := by decide

/-! ## Data model (`models.py`) -/

/-- `models.py` `Product` (all fields default `None`; `scraped_at`-style
timestamps do not occur on products). -/
structure Product where
  id : Option String := none
  title : Option String := none
  handle : Option String := none
  description : Option String := none
  vendor : Option String := none
  product_type : Option String := none
  price : Option String := none
  compare_at_price : Option String := none
  available : Option Bool := none
  tags : Option (List String) := none
  images : Option (List String) := none
  url : Option String := none
  deriving DecidableEq, Repr

/-- `models.py` `FAQ`. -/
structure FAQ where
  question : String
  answer : String
  category : Option String := none
  deriving DecidableEq, Repr

/-- `models.py` `SocialHandle`. -/
structure SocialHandle where
  platform : String
  url : String
  handle : Option String := none
  deriving DecidableEq, Repr

/-- `models.py` `ContactInfo`. -/
structure ContactInfo where
  emails : List String
  phone_numbers : List String
  address : Option String := none
  deriving DecidableEq, Repr

/-- `models.py` `BrandInsights` after `__post_init__`: every list/dict field
defaults to empty.  The `important_links` dict is modelled as an association
list in Python-dict insertion order; the `scraped_at` wall-clock timestamp is
outside the model. -/
structure BrandInsights where
  website_url : String
  brand_name : Option String := none
  brand_description : Option String := none
  product_catalog : List Product := []
  hero_products : List Product := []
  privacy_policy_url : Option String := none
  privacy_policy_content : Option String := none
  return_refund_policy_url : Option String := none
  return_refund_policy_content : Option String := none
  faqs : List FAQ := []
  social_handles : List SocialHandle := []
  contact_info : Option ContactInfo := none
  important_links : List (String × String) := []
  deriving DecidableEq, Repr

/-! ## Substring and regex-search helpers -/

/-- Python `needle in hay` substring test, on character lists. -/
def containsSub (hay needle : List Char) : Bool :=
  match hay with
  | [] => needle.isEmpty
  | _ :: t => needle.isPrefixOf hay || containsSub t needle

/-- Python `needle in hay` substring test, on strings. -/
def isSubstrS (needle hay : String) : Bool :=
  containsSub hay.data needle.data

/-- `re.search(r'LIT([^/?]+)', s)` for a choice of literal alternatives `lits`
(tried in order at each position, leftmost match wins): find the leftmost
position where some literal occurs followed by at least one character that is
neither `/` nor `?`, and capture the maximal such run. -/
def findCapture (lits : List (List Char)) (cs : List Char) : Option (List Char) :=
  match cs with
  | [] => none
  | _ :: rest =>
    match lits.findSome? (fun lit =>
        if lit.isPrefixOf cs then
          let run := (cs.drop lit.length).takeWhile (fun c => c ≠ '/' && c ≠ '?')
          if run ≠ [] then some run else none
        else none) with
    | some run => some run
    | none => findCapture lits rest

/-- `re.sub(r'^https?://(www\.)?', '', url)` from `_extract_handle_from_url`:
strip one leading `http://` or `https://`, and a following `www.` only when a
protocol was stripped. -/
def stripProtocol (s : String) : String :=
  let cs := s.data
  let afterProto : Option (List Char) :=
    if "https://".data.isPrefixOf cs then some (cs.drop 8)
    else if "http://".data.isPrefixOf cs then some (cs.drop 7)
    else none
  match afterProto with
  | none => s
  | some rest => if "www.".data.isPrefixOf rest then ⟨rest.drop 4⟩ else ⟨rest⟩

/-! ## Social-handle extraction (`content_extractor.py`) -/

/-- `content_extractor.py` `_extract_handle_from_url`: platform-specific regex
over the protocol-stripped URL, with per-platform non-handle filters;
platforms without a branch (linkedin, pinterest, snapchat) yield `None`. -/
def extract_handle_from_url (url : String) (platform : String) : Option String :=
  let cu := (stripProtocol url).data
  if platform = "instagram" then
    (findCapture ["instagram.com/".data] cu).bind (fun run =>
      let h : String := ⟨run⟩
      if h ∈ ["www", "web", "home", "explore", "reels"] then none else some h)
  else if platform = "facebook" then
    (findCapture ["facebook.com/".data] cu).bind (fun run =>
      let h : String := ⟨run⟩
      if h ∈ ["www", "web", "home", "pages", "groups"] then none else some h)
  else if platform = "twitter" ∨ platform = "x" then
    (findCapture ["twitter.com/".data, "x.com/".data] cu).bind (fun run =>
      let h : String := ⟨run⟩
      if h ∈ ["www", "web", "home", "explore", "notifications"] then none else some h)
  else if platform = "tiktok" then
    (findCapture ["tiktok.com/@".data] cu).bind (fun run =>
      let h : String := ⟨run⟩
      if h ∈ ["www", "web", "home", "explore"] then none else some h)
  else if platform = "youtube" then
    if containsSub cu "/channel/".data then
      (findCapture ["youtube.com/channel/".data] cu).map (fun run =>
        "Channel: " ++ (⟨run.take 20⟩ : String) ++ "...")
    else if containsSub cu "/@".data then
      (findCapture ["youtube.com/@".data] cu).map (fun run => (⟨run⟩ : String))
    else if containsSub cu "/c/".data then
      (findCapture ["youtube.com/c/".data] cu).map (fun run => (⟨run⟩ : String))
    else none
  else none

/-- The `social_platforms` dict of `extract_social_handles`, in insertion
order. -/
def socialPlatforms : List (String × List String) :=
  [("facebook", ["facebook.com", "fb.com"]),
   ("instagram", ["instagram.com"]),
   ("twitter", ["twitter.com", "x.com"]),
   ("tiktok", ["tiktok.com"]),
   ("youtube", ["youtube.com", "youtu.be"]),
   ("linkedin", ["linkedin.com"]),
   ("pinterest", ["pinterest.com"]),
   ("snapchat", ["snapchat.com"])]

/-- The inner platform loop of `extract_social_handles` for one link: find the
first not-yet-found platform whose domain list matches the lower-cased href
and whose extracted handle is truthy and not in `['www','web','home']`; a
platform whose domain matches but whose handle is rejected does not stop the
loop (no `break` is reached there). -/
def scanPlatforms (found : List String) (href : String) :
    List (String × List String) → Option (String × String)
  | [] => none
  | (p, doms) :: rest =>
    if !found.contains p && doms.any (fun d => isSubstrS d href) then
      match extract_handle_from_url href p with
      | some h =>
        if h ≠ "" ∧ h ∉ ["www", "web", "home"] then some (p, h)
        else scanPlatforms found href rest
      | none => scanPlatforms found href rest
    else scanPlatforms found href rest

/-- The link loop of `extract_social_handles`: each anchor href is lower-cased
(`str(href_raw).lower()`, empty href stays empty), fragment/relative links are
skipped, and a successful platform scan appends a `SocialHandle` and marks the
platform found. -/
def socialLoop : List String → List String → List SocialHandle → List SocialHandle
  | [], _, out => out
  | l :: rest, found, out =>
    let href := pyLower l
    if "#".data.isPrefixOf href.data || "/".data.isPrefixOf href.data then
      socialLoop rest found out
    else
      match scanPlatforms found href socialPlatforms with
      | some (p, h) => socialLoop rest (found ++ [p]) (out ++ [⟨p, href, some h⟩])
      | none => socialLoop rest found out

/-- `content_extractor.py` `extract_social_handles`, given the homepage anchor
hrefs in document order. -/
def extract_social_handles (links : List String) : List SocialHandle :=
  socialLoop links [] []

example :
    extract_social_handles ["https://INSTAGRAM.com/Acme_Official"] =
      [⟨"instagram", "https://instagram.com/acme_official", some "acme_official"⟩] := by
  decide

example :
    extract_social_handles ["https://instagram.com", "https://instagram.com/acme"] =
      [⟨"instagram", "https://instagram.com/acme", some "acme"⟩] := by
  decide

/-! ## Important-links extraction (`shopify_scraper.py` `_extract_important_links`) -/

/-- A homepage anchor: its `href` attribute and its anchor text. -/
structure PageLink where
  href : String
  text : String
  deriving DecidableEq, Repr

/-- The `important_keywords` dict of `_extract_important_links`, in insertion
order. -/
def importantKeywords : List (String × List String) :=
  [("order_tracking", ["track", "order", "tracking"]),
   ("contact_us", ["contact", "support"]),
   ("blog", ["blog", "news", "article"]),
   ("about", ["about"]),
   ("shipping", ["shipping"]),
   ("faq", ["faq", "help"])]

/-- The inner category loop of `_extract_important_links` for one link: the
first category (in table order) one of whose keywords occurs in the
lower-cased href or in the lower-cased cleaned anchor text; the loop `break`s
after the first hit, so a link is assigned at most one category. -/
def linkCategory (l : PageLink) : Option String :=
  let href := pyLower l.href
  let text := pyLower (clean_text l.text)
  (importantKeywords.find? (fun ck =>
    ck.2.any (fun kw => isSubstrS kw href || isSubstrS kw text))).map (·.1)

/-- Python dict assignment `m[k] = v`: update the existing entry in place, or
append a new one. -/
def upsert (k v : String) : List (String × String) → List (String × String)
  | [] => [(k, v)]
  | (k', v') :: rest => if k' = k then (k, v) :: rest else (k', v') :: upsert k v rest

/-- Python dict lookup `m.get(k)` on the association-list model. -/
def lookupS (k : String) : List (String × String) → Option String
  | [] => none
  | (k', v) :: rest => if k' = k then some v else lookupS k rest

/-- The link loop of `_extract_important_links`: each categorised link writes
`urljoin(website_url, str(href_raw))` into the dict under its category
(overwriting any previous value).  `urljoin` is the abstract parameter
`join`. -/
def linksLoop (join : String → String → String) (base : String) :
    List PageLink → List (String × String) → List (String × String)
  | [], m => m
  | l :: rest, m =>
    match linkCategory l with
    | some cat => linksLoop join base rest (upsert cat (join base l.href) m)
    | none => linksLoop join base rest m

/-- `shopify_scraper.py` `_extract_important_links`, given the homepage anchors
in document order; the insights dict starts empty. -/
def extract_important_links (join : String → String → String) (base : String)
    (links : List PageLink) : List (String × String) :=
  linksLoop join base links []

/-- The last link of the list whose first matching category is `cat`. -/
def lastMatch (cat : String) : List PageLink → Option PageLink
  | [] => none
  | l :: rest =>
    match lastMatch cat rest with
    | some l' => some l'
    | none => if linkCategory l = some cat then some l else none

example :
    extract_important_links (fun _ h => h) "https://s.com"
      [⟨"/contact-a", "x"⟩, ⟨"/contact-b", "y"⟩] = [("contact_us", "/contact-b")] := by
  decide

/-! ## More Python string helpers (fuelled, structurally recursive) -/

/-- Python `s.split(sep)` for a nonempty separator (fuelled worker; the fuel
is an upper bound on the characters still to scan): split on each
left-to-right non-overlapping occurrence of `sep`. -/
def pySplitSepF (sep : List Char) : Nat → List Char → List Char → List (List Char)
  | 0, acc, cs => [acc.reverse ++ cs]
  | _ + 1, acc, [] => [acc.reverse]
  | fuel + 1, acc, c :: cs =>
    if sep ≠ [] ∧ sep.isPrefixOf (c :: cs) then
      acc.reverse :: pySplitSepF sep fuel [] ((c :: cs).drop sep.length)
    else
      pySplitSepF sep fuel (c :: acc) cs

/-- Python `s.split(sep)` for a nonempty separator. -/
def pySplitSep (s sep : String) : List String :=
  (pySplitSepF sep.data s.data.length [] s.data).map (fun cs => (⟨cs⟩ : String))

/-- Python `s.replace(pat, rep)` for a nonempty pattern (fuelled worker):
replace each left-to-right non-overlapping occurrence. -/
def pyReplaceF (pat rep : List Char) : Nat → List Char → List Char
  | 0, cs => cs
  | _ + 1, [] => []
  | fuel + 1, c :: cs =>
    if pat ≠ [] ∧ pat.isPrefixOf (c :: cs) then
      rep ++ pyReplaceF pat rep fuel ((c :: cs).drop pat.length)
    else
      c :: pyReplaceF pat rep fuel cs

/-- Python `s.replace(pat, rep)` for a nonempty pattern. -/
def pyReplace (s pat rep : String) : String :=
  ⟨pyReplaceF pat.data rep.data s.data.length s.data⟩

/-- Python `s.capitalize()` (ASCII behaviour): first character upper-cased,
the rest lower-cased. -/
def pyCapitalize (s : String) : String :=
  match s.data with
  | [] => ""
  | c :: cs => ⟨c.toUpper :: cs.map Char.toLower⟩

example : pySplitSep "a | b | c" " | " = ["a", "b", "c"] := by decide
example : pyReplace "wwww.acme.com" "www." "" = "wacme.com" := by decide

/-! ## Brand-name resolution (`shopify_scraper.py` `_extract_brand_info`) -/

/-- The `suffixes_to_remove` list of `_extract_brand_info`, in order. -/
def storeSuffixes : List String :=
  [" - Online Store", " | Official Store", " Store", " Shop",
   " Official Site", " Website"]

/-- The suffix-removal loop of `_extract_brand_info` method 3: the first
suffix (in list order) that the title ends with is cut off and the remainder
stripped; the loop `break`s after the first hit. -/
def stripStoreSuffix (t : String) : String :=
  match storeSuffixes.find? (fun suf => suf.data.isSuffixOf t.data) with
  | some suf => pyStrip ⟨t.data.take (t.data.length - suf.data.length)⟩
  | none => t

/-- `_extract_brand_info` method 3: clean the `<title>` text, strip one known
storefront suffix, then take the first segment before `' | '` or `' - '`. -/
def brandFromTitle (t : String) : String :=
  let tt := stripStoreSuffix (clean_text t)
  if isSubstrS " | " tt then pyStrip ((pySplitSep tt " | ").headD "")
  else if isSubstrS " - " tt then pyStrip ((pySplitSep tt " - ").headD "")
  else tt

/-- `urlparse(url).netloc`, modelled for absolute URLs of the form
`scheme://host/...`: the part between `://` and the next `/` (empty when the
URL has no `://`). -/
def netlocOf (url : String) : String :=
  match pySplitSep url "://" with
  | _ :: rest :: _ => ⟨rest.data.takeWhile (fun c => c ≠ '/')⟩
  | _ => ""

/-- `_extract_brand_info` method 4: lower-case the netloc, delete every
`www.`, and if a dot remains take the label before the first dot,
capitalized; no dot means no assignment. -/
def brandFromDomain (url : String) : Option String :=
  let domain := pyReplace (pyLower (netlocOf url)) "www." ""
  if domain.data.contains '.' then
    some (pyCapitalize ((pySplitSep domain ".").headD ""))
  else none

/-- Truthiness of the running `brand_name` variable (`None` or `""` is
falsy). -/
def optTruthy (o : Option String) : Bool :=
  o.getD "" ≠ ""

/-- The brand-name resolution cascade of `_extract_brand_info`: method 1
(`og:site_name` content), method 2 (`application-name` content), method 3
(title), method 4 (domain), final placeholder fallback.  `og`/`app`/`title`
are the respective tag contents (`none` when the tag is absent). -/
def resolve_brand_name (og app title : Option String) (website_url : String) : String :=
  let bn1 : Option String :=
    match og with
    | some c => if pyStrip c ≠ "" then some (clean_text c) else none
    | none => none
  let bn2 : Option String :=
    if optTruthy bn1 then bn1
    else
      match app with
      | some c => if pyStrip c ≠ "" then some (clean_text c) else bn1
      | none => bn1
  let bn3 : Option String :=
    if optTruthy bn2 then bn2
    else
      match title with
      | some t => some (brandFromTitle t)
      | none => bn2
  let bn4 : Option String :=
    if !optTruthy bn3 || (pyStrip (bn3.getD "")).length < 3 then
      match brandFromDomain website_url with
      | some b => some b
      | none => bn3
    else bn3
  match bn4 with
  | some s => if pyStrip s ≠ "" then s else "Brand Name Not Available"
  | none => "Brand Name Not Available"

example :
    resolve_brand_name none none (some "Acme Shop - Online Store") "https://acme.com" =
      "Acme Shop" := by
  decide

example : resolve_brand_name none none none "https://acme.com" = "Acme" := by decide

/-! ## Product catalog (`shopify_scraper.py` `_parse_product_json`) -/

/-- One entry of a product's `images` array in the `products.json` feed:
a dict (whose `src` value defaults to `""` when the key is absent), a bare
string, or any other JSON value (skipped by the parser). -/
inductive ImageJson where
  | obj (src : String)
  | str (s : String)
  | other
  deriving DecidableEq, Repr

/-- One entry of a product's `variants` array in the feed.  `available`
distinguishes an absent key (`none`), an explicit JSON `null`
(`some none`), and a boolean (`some (some b)`), since Python's
`variant.get('available', False)` returns `None` for an explicit `null` but
`False` for an absent key. -/
structure VariantJson where
  price : Option String := none
  compare_at_price : Option String := none
  available : Option (Option Bool) := none
  deriving DecidableEq, Repr

/-- One entry of the `products` array of the `products.json` feed.  String
fields carry the value of `product_data.get(key, default)` (for `id`, the
value after Python `str()`). -/
structure ProductJson where
  id : String := ""
  title : String := ""
  handle : String := ""
  body_html : String := ""
  vendor : String := ""
  product_type : String := ""
  tags : List String := []
  variants : List VariantJson := []
  images : List ImageJson := []
  deriving DecidableEq, Repr

/-- The `src` contributed by one feed image, if any. -/
def imageSrc : ImageJson → Option String
  | .obj src => some src
  | .str s => some s
  | .other => none

/-- `shopify_scraper.py` `_parse_product_json`: price/compare-at/availability
from the first variant only, images flattened from dict or string entries
(without truncation), URL built by `urljoin(base_url, f"/products/{handle}")`
(`urljoin` is the abstract parameter `join`). -/
def parse_product_json (join : String → String → String) (base : String)
    (pd : ProductJson) : Product :=
  let price : Option String :=
    match pd.variants with
    | [] => none
    | v :: _ => v.price
  let compareAt : Option String :=
    match pd.variants with
    | [] => none
    | v :: _ => v.compare_at_price
  let available : Option Bool :=
    match pd.variants with
    | [] => some false
    | v :: _ =>
      match v.available with
      | none => some false
      | some a => a
  { id := some pd.id
    title := some (clean_text pd.title)
    handle := some pd.handle
    description := some (clean_text pd.body_html)
    vendor := some pd.vendor
    product_type := some pd.product_type
    price := price
    compare_at_price := compareAt
    available := available
    tags := some pd.tags
    images := some (pd.images.filterMap imageSrc)
    url := some (join base ("/products/" ++ pd.handle)) }

/-! ## Hero products (`shopify_scraper.py` `_scrape_individual_product`,
`_extract_hero_products`) -/

/-- The DOM query results `_scrape_individual_product` reads from a fetched
product page: the first `h1`'s text, the first price-classed `span`/`div`'s
text, and the `src` attributes of all `img[src]` tags in document order. -/
structure ProductPage where
  h1 : Option String := none
  priceText : Option String := none
  imgSrcs : List String := []
  deriving DecidableEq, Repr

/-- `shopify_scraper.py` `_scrape_individual_product` on a successfully
fetched page: title from the first `h1` (else `""`), cleaned price, and the
first 3 image srcs containing `product` (case-insensitively) or
`cdn.shopify`. -/
def scrape_individual_product (page : ProductPage) (product_url : String) : Product :=
  let title_text :=
    match page.h1 with
    | some t => clean_text t
    | none => ""
  let price := page.priceText.map clean_text
  let images :=
    (page.imgSrcs.filter (fun src =>
      isSubstrS "product" (pyLower src) || isSubstrS "cdn.shopify" src)).take 3
  { title := some title_text
    price := price
    images := some images
    url := some product_url }

/-- The homepage link loop of `_extract_hero_products`: for each anchor href
containing `/products/`, while fewer than 10 products have been collected,
fetch `urljoin(website_url, href)` and append the scraped product on success.
Returns the collected products together with the list of URLs for which a
fetch was attempted.  `fetch` models `_scrape_individual_product`'s outcome
per URL (`none` = request failed). -/
def heroLoop (fetch : String → Option Product) (join : String → String → String)
    (base : String) : List String → List Product → List Product × List String
  | [], acc => (acc, [])
  | href :: rest, acc =>
    if isSubstrS "/products/" href then
      if acc.length < 10 then
        let u := join base href
        match fetch u with
        | some p =>
          let r := heroLoop fetch join base rest (acc ++ [p])
          (r.1, u :: r.2)
        | none =>
          let r := heroLoop fetch join base rest acc
          (r.1, u :: r.2)
      else
        heroLoop fetch join base rest acc
    else
      heroLoop fetch join base rest acc

/-- `shopify_scraper.py` `_extract_hero_products`: the collected products,
truncated to the first 6. -/
def extract_hero_products (fetch : String → Option Product)
    (join : String → String → String) (base : String) (links : List String) :
    List Product :=
  (heroLoop fetch join base links []).1.take 6

/-- The product-page URLs `_extract_hero_products` attempts to fetch, in
order. -/
def heroFetchTrace (fetch : String → Option Product)
    (join : String → String → String) (base : String) (links : List String) :
    List String :=
  (heroLoop fetch join base links []).2

/-! ## FAQ extraction (`content_extractor.py` `extract_faqs`, `_parse_faq_page`) -/

/-- `re.sub(r'\s+', ' ', s)` (fuelled worker): replace each maximal
whitespace run by a single space. -/
def collapseRunsF : Nat → List Char → List Char
  | 0, cs => cs
  | _ + 1, [] => []
  | fuel + 1, c :: cs =>
    if isPySpace c then ' ' :: collapseRunsF fuel (cs.dropWhile isPySpace)
    else c :: collapseRunsF fuel cs

/-- The FAQ dedup key of `_parse_faq_page`:
`re.sub(r'\s+', ' ', faq.question.lower().strip())`. -/
def normQuestion (q : String) : String :=
  let t := pyStrip (pyLower q)
  ⟨collapseRunsF t.data.length t.data⟩

/-- The dedup loop at the end of `_parse_faq_page`: keep the first FAQ for
each normalized question, preserving order. -/
def dedupFaqs : List FAQ → List String → List FAQ
  | [], _ => []
  | f :: rest, seen =>
    let n := normQuestion f.question
    if n ∈ seen then dedupFaqs rest seen
    else f :: dedupFaqs rest (n :: seen)

/-- `content_extractor.py` `_parse_faq_page`, applied to the raw Q/A pairs the
five extraction methods produced for one page (the DOM/regex methods are
modelled by their output list): the source deduplicates them by normalized
question. -/
def parse_faq_page (raw : List FAQ) : List FAQ :=
  dedupFaqs raw []

/-- The FAQ-path loop of `extract_faqs`: each candidate path either failed to
fetch (`none`) or yielded a page whose parse produced the given raw list; the
loop extends the (empty) accumulator with the parsed page and `break`s as
soon as it is nonempty. -/
def faqPagesLoop : List (Option (List FAQ)) → List FAQ
  | [] => []
  | none :: rest => faqPagesLoop rest
  | some raw :: rest =>
    let pf := parse_faq_page raw
    if pf = [] then faqPagesLoop rest else pf

/-- `content_extractor.py` `extract_faqs`: try the FAQ-path candidates in
order, fall back to the main page when they all yield nothing, and truncate
the result to 10. -/
def extract_faqs (pages : List (Option (List FAQ))) (main : Option (List FAQ)) :
    List FAQ :=
  let fromPaths := faqPagesLoop pages
  let faqs :=
    if fromPaths = [] then
      match main with
      | some raw => parse_faq_page raw
      | none => []
    else fromPaths
  faqs.take 10

/-! ## Orchestration (`shopify_scraper.py` `scrape_store`,
`_extract_product_catalog`) -/

/-- `shopify_scraper.py` `_extract_product_catalog`: the whole body runs
inside `try/except`.  `fetch` is the outcome of requesting
`/products.json` and decoding its body: `none` when `_make_request` returned
no response (no exception is raised in that case), `some (.error e)` when
`response.json()` raised, `some (.ok pds)` for a decoded feed.  On the error
the exception is swallowed and the insights are returned unchanged; on
success every feed entry is parsed and appended. -/
def extract_product_catalog (join : String → String → String)
    (fetch : Option (Except String (List ProductJson))) (base : String)
    (ins : BrandInsights) : BrandInsights :=
  match fetch with
  | none => ins
  | some (.error _) => ins
  | some (.ok pds) =>
    { ins with
      product_catalog := ins.product_catalog ++ pds.map (parse_product_json join base) }

/-- The per-scrape environment of `scrape_store`: the access-verification
outcome and the behaviour of each extraction sub-step.  Every sub-step other
than the catalog one is modelled as a state transformer that may raise
(`Except.error`) — none of `_extract_brand_info`, `_extract_hero_products`,
`_extract_policies`, `_extract_faqs`, `_extract_social_handles`,
`_extract_contact_info`, `_extract_important_links` contains a `try/except`
of its own, so whatever exception escapes one of them reaches
`scrape_store`. -/
structure ScrapeEnv where
  accessOk : Bool
  join : String → String → String
  brandStep : BrandInsights → Except String BrandInsights
  catalogFetch : Option (Except String (List ProductJson))
  heroStep : BrandInsights → Except String BrandInsights
  policiesStep : BrandInsights → Except String BrandInsights
  faqsStep : BrandInsights → Except String BrandInsights
  socialStep : BrandInsights → Except String BrandInsights
  contactStep : BrandInsights → Except String BrandInsights
  linksStep : BrandInsights → Except String BrandInsights

/-- `shopify_scraper.py` `scrape_store`: build fresh insights, fail when the
site is inaccessible, then run the eight sub-steps in order.  The single
`try/except` wrapping them re-raises (`except Exception as e: ... raise`), so
an exception in any sub-step propagates; only the catalog sub-step swallows
its own exceptions internally. -/
def scrape_store (env : ScrapeEnv) (website_url : String) :
    Except String BrandInsights :=
  let insights : BrandInsights := { website_url := website_url }
  if !env.accessOk then .error "Website not accessible or not found"
  else do
    let s1 ← env.brandStep insights
    let s2 := extract_product_catalog env.join env.catalogFetch website_url s1
    let s3 ← env.heroStep s2
    let s4 ← env.policiesStep s3
    let s5 ← env.faqsStep s4
    let s6 ← env.socialStep s5
    let s7 ← env.contactStep s6
    env.linksStep s7

/-! ## Theorems -/

/-- C4 counterexample: with title `Acme Shop - Online Store` and no
`og:site_name` / `application-name` tags, the brand name does not resolve to
`"Acme"`. -/
theorem c4_brand_name_not_acme :
    resolve_brand_name none none (some "Acme Shop - Online Store") "https://acme.com" ≠
      "Acme" := by
  decide

/-- C4 (amended): with title `Acme Shop - Online Store` and no
`og:site_name` / `application-name` tags, the brand name resolves to
`"Acme Shop"` — the suffix loop strips `' - Online Store'` and then breaks, so
the remaining `' Shop'` suffix is not also stripped. -/
theorem c4_brand_name_acme_shop :
    resolve_brand_name none none (some "Acme Shop - Online Store") "https://acme.com" =
      "Acme Shop" := by
  decide

/-- C9 counterexample: a feed product whose first variant carries an explicit
JSON `null` for `available` yields a Product whose `available` field is
`None` — the field is not always a boolean. -/
theorem c9_available_null_possible :
    (parse_product_json (fun _ h => h) "https://s.com"
      { variants := [{ available := some none }] }).available = none := by
  rfl

/-- C9 (amended): `available` is `False` when the product has no variants or
the first variant lacks the key, and otherwise is exactly the first variant's
`available` value — so it is `None` precisely when the feed's first variant
maps `available` to an explicit `null`. -/
theorem c9_available_none_iff (join : String → String → String) (base : String)
    (pd : ProductJson) :
    (parse_product_json join base pd).available = none ↔
      ∃ v rest, pd.variants = v :: rest ∧ v.available = some none := by
  cases hv : pd.variants with
  | nil => simp [parse_product_json, hv]
  | cons v rest =>
    cases hav : v.available with
    | none => simp [parse_product_json, hv, hav]
    | some a =>
      cases a with
      | none => simp [parse_product_json, hv, hav]
      | some b => simp [parse_product_json, hv, hav]

/-- C6 counterexample: a feed product with 4 images keeps all 4 (no 3-cap on
catalog products), and a hero product page with 3 matching image srcs keeps
all 3 (the hero cap is 3, not 2). -/
theorem c6_image_caps_wrong :
    3 < (((parse_product_json (fun _ h => h) "https://s.com"
            { images := [.str "a", .str "b", .str "c", .str "d"] }).images.getD []).length) ∧
    2 < (((scrape_individual_product
            { imgSrcs := ["https://cdn.shopify.com/1.png", "https://cdn.shopify.com/2.png",
                          "https://cdn.shopify.com/3.png"] }
            "https://s.com/products/p").images.getD []).length) := by
  decide

/-- A feed image list with no non-dict/non-string entries contributes exactly
one `src` per entry. -/
theorem length_filterMap_imageSrc (l : List ImageJson)
    (h : ∀ im ∈ l, im ≠ ImageJson.other) :
    (l.filterMap imageSrc).length = l.length := by
  induction l with
  | nil => rfl
  | cons a t ih =>
    have ha := h a (by simp)
    have ht : ∀ im ∈ t, im ≠ ImageJson.other := fun im him => h im (by simp [him])
    cases a with
    | obj src => simp [imageSrc, List.filterMap_cons, ih ht]
    | str s => simp [imageSrc, List.filterMap_cons, ih ht]
    | other => exact absurd rfl ha

/-- C6 (amended): catalog products built from the feed keep one image URL per
dict/string feed image with no truncation at all, while hero products scraped
from a product page are truncated to at most 3 matching images (not 2). -/
theorem c6_image_caps (join : String → String → String) (base : String)
    (pd : ProductJson) (page : ProductPage) (url : String)
    (hdict : ∀ im ∈ pd.images, im ≠ ImageJson.other) :
    ((parse_product_json join base pd).images.getD []).length = pd.images.length ∧
    ((scrape_individual_product page url).images.getD []).length ≤ 3 := by
  constructor
  · have hi : (parse_product_json join base pd).images =
        some (pd.images.filterMap imageSrc) := rfl
    rw [hi, Option.getD_some]
    exact length_filterMap_imageSrc pd.images hdict
  · have hi : (scrape_individual_product page url).images =
        some ((page.imgSrcs.filter (fun src =>
          isSubstrS "product" (pyLower src) || isSubstrS "cdn.shopify" src)).take 3) := rfl
    rw [hi, Option.getD_some]
    exact List.length_take_le 3 _

/-- C6 witness: the amended bounds at a concrete feed product and page. -/
theorem c6_image_caps_witness :
    ((parse_product_json (fun _ h => h) "https://s.com"
        { images := [.str "a", .obj "b"] }).images.getD []).length =
      ([.str "a", .obj "b"] : List ImageJson).length ∧
    ((scrape_individual_product { imgSrcs := ["https://cdn.shopify.com/1.png"] }
        "https://s.com/products/p").images.getD []).length ≤ 3 :=
  c6_image_caps (fun _ h => h) "https://s.com" { images := [.str "a", .obj "b"] }
    { imgSrcs := ["https://cdn.shopify.com/1.png"] } "https://s.com/products/p"
    (by decide)

/-- C2 counterexample: two homepage links both categorised `contact_us`; the
recorded URL is the second (last) one, not the first. -/
theorem c2_first_link_does_not_win :
    lookupS "contact_us"
        (extract_important_links (fun _ h => h) "https://s.com"
          [⟨"/contact-a", "x"⟩, ⟨"/contact-b", "y"⟩]) = some "/contact-b" ∧
      ("/contact-b" : String) ≠ "/contact-a" := by
  decide

/-- Dict lookup after updating the same key. -/
theorem lookupS_upsert_same (k v : String) (m : List (String × String)) :
    lookupS k (upsert k v m) = some v := by
  induction m with
  | nil => simp [upsert, lookupS]
  | cons e rest ih =>
    obtain ⟨k', v'⟩ := e
    by_cases h : k' = k
    · simp [upsert, lookupS, h]
    · simp [upsert, lookupS, h, ih]

/-- Dict lookup after updating a different key. -/
theorem lookupS_upsert_ne (k k' v : String) (m : List (String × String))
    (h : k' ≠ k) :
    lookupS k (upsert k' v m) = lookupS k m := by
  induction m with
  | nil => simp [upsert, lookupS, h]
  | cons e rest ih =>
    obtain ⟨k'', v''⟩ := e
    by_cases h2 : k'' = k'
    · subst h2
      simp [upsert, lookupS, h, ih]
    · simp [upsert, lookupS, h2, ih]

/-- The important-links loop records, per category, the last link whose first
matching category is that category. -/
theorem linksLoop_lookup (join : String → String → String) (base cat : String) :
    ∀ (links : List PageLink) (m : List (String × String)),
      lookupS cat (linksLoop join base links m) =
        match lastMatch cat links with
        | some l => some (join base l.href)
        | none => lookupS cat m := by
  intro links
  induction links with
  | nil => intro m; simp [linksLoop, lastMatch]
  | cons l rest ih =>
    intro m
    cases hc : linkCategory l with
    | none =>
      rw [linksLoop, hc, ih]
      cases hlm : lastMatch cat rest with
      | some l' => simp [lastMatch, hlm]
      | none => simp [lastMatch, hlm, hc]
    | some c =>
      rw [linksLoop, hc, ih]
      cases hlm : lastMatch cat rest with
      | some l' => simp [lastMatch, hlm]
      | none =>
        by_cases hcc : c = cat
        · subst hcc
          simp [lastMatch, hlm, hc, lookupS_upsert_same]
        · have : ¬(linkCategory l = some cat) := by simp [hc, hcc]
          simp [lastMatch, hlm, this, lookupS_upsert_ne _ _ _ _ hcc]

/-- C2 (amended): for every category, the URL recorded in the important-links
map comes from the LAST homepage link (in document order) whose first
keyword-matching category is that category — later matching links overwrite
earlier ones; a link is assigned only to the first category it matches. -/
theorem c2_last_link_wins (join : String → String → String) (base : String)
    (links : List PageLink) (cat : String) :
    lookupS cat (extract_important_links join base links) =
      (lastMatch cat links).map (fun l => join base l.href) := by
  rw [extract_important_links, linksLoop_lookup]
  cases lastMatch cat links with
  | none => simp [lookupS]
  | some l => simp

/-- A successful platform scan only ever returns a truthy handle outside the
global non-handle list (`if handle and handle not in ['www','web','home']`). -/
theorem scanPlatforms_handle_valid :
    ∀ (ps : List (String × List String)) (found : List String) (href p h : String),
      scanPlatforms found href ps = some (p, h) →
      h ≠ "" ∧ h ∉ (["www", "web", "home"] : List String) := by
  intro ps
  induction ps with
  | nil =>
    intro found href p h hs
    simp [scanPlatforms] at hs
  | cons pd rest ih =>
    intro found href p h hs
    obtain ⟨p', doms⟩ := pd
    rw [scanPlatforms] at hs
    by_cases hcond : (!found.contains p' && doms.any (fun d => isSubstrS d href)) = true
    · rw [if_pos hcond] at hs
      cases hh : extract_handle_from_url href p' with
      | none =>
        simp only [hh] at hs
        exact ih found href p h hs
      | some h' =>
        simp only [hh] at hs
        by_cases hv : h' ≠ "" ∧ h' ∉ (["www", "web", "home"] : List String)
        · rw [if_pos hv] at hs
          simp only [Option.some.injEq, Prod.mk.injEq] at hs
          exact hs.2 ▸ hv
        · rw [if_neg hv] at hs
          exact ih found href p h hs
    · rw [if_neg hcond] at hs
      exact ih found href p h hs

/-- Every handle the social loop appends comes from some scanned link: its
`url` is that link's lower-cased href, and its `handle` is a validated
(non-null, non-junk) extracted handle. -/
theorem socialLoop_mem_spec :
    ∀ (links found : List String) (out : List SocialHandle) (sh : SocialHandle),
      sh ∈ socialLoop links found out →
      sh ∈ out ∨
        ∃ l ∈ links, sh.url = pyLower l ∧
          ∃ h, sh.handle = some h ∧ h ≠ "" ∧
            h ∉ (["www", "web", "home"] : List String) := by
  intro links
  induction links with
  | nil =>
    intro found out sh hm
    exact Or.inl hm
  | cons l rest ih =>
    intro found out sh hm
    rw [socialLoop] at hm
    by_cases hskip :
        ("#".data.isPrefixOf (pyLower l).data || "/".data.isPrefixOf (pyLower l).data) = true
    · rw [if_pos hskip] at hm
      rcases ih found out sh hm with h1 | ⟨l', hl', hrest⟩
      · exact Or.inl h1
      · exact Or.inr ⟨l', List.mem_cons_of_mem _ hl', hrest⟩
    · rw [if_neg hskip] at hm
      cases hscan : scanPlatforms found (pyLower l) socialPlatforms with
      | none =>
        rw [hscan] at hm
        rcases ih found out sh hm with h1 | ⟨l', hl', hrest⟩
        · exact Or.inl h1
        · exact Or.inr ⟨l', List.mem_cons_of_mem _ hl', hrest⟩
      | some ph =>
        obtain ⟨p, h⟩ := ph
        rw [hscan] at hm
        rcases ih (found ++ [p]) (out ++ [⟨p, pyLower l, some h⟩]) sh hm with h1 | ⟨l', hl', hrest⟩
        · rcases List.mem_append.mp h1 with h3 | h4
          · exact Or.inl h3
          · have hsh : sh = ⟨p, pyLower l, some h⟩ := by simpa using h4
            have hv := scanPlatforms_handle_valid socialPlatforms found (pyLower l) p h hscan
            refine Or.inr ⟨l, List.mem_cons_self _ _, ?_, h, ?_, hv.1, hv.2⟩
            · rw [hsh]
            · rw [hsh]
        · exact Or.inr ⟨l', List.mem_cons_of_mem _ hl', hrest⟩

/-- C3 counterexample: for `https://instagram.com` the instagram domain list
matches but the handle regex fails; no `SocialHandle` with a null handle is
recorded, the platform is not marked found, and the later
`https://instagram.com/acme` link is still scanned and wins. -/
theorem c3_no_null_handle_recorded :
    extract_social_handles ["https://instagram.com", "https://instagram.com/acme"] =
        [⟨"instagram", "https://instagram.com/acme", some "acme"⟩] ∧
      (⟨"instagram", "https://instagram.com", none⟩ : SocialHandle) ∉
        extract_social_handles ["https://instagram.com", "https://instagram.com/acme"] := by
  decide

/-- C3 (amended): a `SocialHandle` is recorded only when the platform-specific
handle regex succeeds with a handle outside `['www','web','home']`; when
extraction fails the link is skipped, so no recorded handle is ever null. -/
theorem c3_recorded_handles_never_null (links : List String) (sh : SocialHandle)
    (hmem : sh ∈ extract_social_handles links) :
    ∃ h, sh.handle = some h ∧ h ∉ (["www", "web", "home"] : List String) := by
  rcases socialLoop_mem_spec links [] [] sh hmem with h1 | ⟨_, _, _, h, hh, _, hbad⟩
  · simp at h1
  · exact ⟨h, hh, hbad⟩

/-- C3 witness: the amended statement applied to the single handle extracted
from a concrete homepage. -/
theorem c3_recorded_handles_never_null_witness :
    ∃ h, (⟨"instagram", "https://instagram.com/acme", some "acme"⟩ : SocialHandle).handle =
        some h ∧ h ∉ (["www", "web", "home"] : List String) :=
  c3_recorded_handles_never_null ["https://instagram.com/acme"]
    ⟨"instagram", "https://instagram.com/acme", some "acme"⟩ (by decide)

/-- C10: every recorded `SocialHandle.url` is the lower-cased form of one of
the scanned hrefs (`str(href_raw).lower()` is stored, never the original
casing). -/
theorem c10_social_url_lowercased (links : List String) (sh : SocialHandle)
    (hmem : sh ∈ extract_social_handles links) :
    ∃ l ∈ links, sh.url = pyLower l := by
  rcases socialLoop_mem_spec links [] [] sh hmem with h1 | ⟨l, hl, hurl, _⟩
  · simp at h1
  · exact ⟨l, hl, hurl⟩

/-- C10 witness: a mixed-case instagram link is stored lower-cased. -/
theorem c10_social_url_lowercased_witness :
    ∃ l ∈ (["https://INSTAGRAM.com/Acme"] : List String),
      (⟨"instagram", "https://instagram.com/acme", some "acme"⟩ : SocialHandle).url =
        pyLower l :=
  c10_social_url_lowercased ["https://INSTAGRAM.com/Acme"]
    ⟨"instagram", "https://instagram.com/acme", some "acme"⟩ (by decide)

/-- The hero-product loop never collects more than 10 products. -/
theorem heroLoop_collected_le (fetch : String → Option Product)
    (join : String → String → String) (base : String) :
    ∀ (links : List String) (acc : List Product), acc.length ≤ 10 →
      (heroLoop fetch join base links acc).1.length ≤ 10 := by
  intro links
  induction links with
  | nil => intro acc h; exact h
  | cons href rest ih =>
    intro acc hacc
    simp only [heroLoop]
    by_cases hm : isSubstrS "/products/" href = true
    · rw [if_pos hm]
      by_cases hlen : acc.length < 10
      · rw [if_pos hlen]
        cases hfe : fetch (join base href) with
        | some p =>
          simpa using ih (acc ++ [p]) (by simp; omega)
        | none =>
          simpa using ih acc hacc
      · rw [if_neg hlen]
        exact ih acc hacc
    · rw [if_neg hm]
      exact ih acc hacc

/-- When every fetch fails the loop still attempts one fetch per matching
link: failures do not count against the 10-product cap. -/
theorem heroLoop_trace_all_fail (fetch : String → Option Product)
    (join : String → String → String) (base : String) (hf : ∀ u, fetch u = none) :
    ∀ (links : List String) (acc : List Product), acc.length < 10 →
      (heroLoop fetch join base links acc).2.length =
        (links.filter (fun href => isSubstrS "/products/" href)).length := by
  intro links
  induction links with
  | nil => intro acc _; rfl
  | cons href rest ih =>
    intro acc hacc
    simp only [heroLoop]
    by_cases hm : isSubstrS "/products/" href = true
    · rw [if_pos hm, if_pos hacc, hf (join base href)]
      simp [List.filter_cons, hm, ih acc hacc]
    · rw [if_neg hm]
      simp [List.filter_cons, hm, ih acc hacc]

/-- C7 counterexample: with 11 matching homepage links and every product-page
fetch failing, 11 fetches are attempted — the number of fetch attempts is not
capped at 10 (only the number of successfully collected products is). -/
theorem c7_attempts_not_capped_at_10 :
    10 < (heroFetchTrace (fun _ => none) (fun _ h => h) "https://s.com"
      ["/products/a", "/products/b", "/products/c", "/products/d", "/products/e",
       "/products/f", "/products/g", "/products/h", "/products/i", "/products/j",
       "/products/k"]).length := by
  decide

/-- C7 (amended): a fetch is attempted for every matching link while fewer
than 10 products have been successfully scraped (so failed fetches do not
count toward the cap), at most 10 products are collected, and only the first
6 are kept. -/
theorem c7_hero_caps (fetch : String → Option Product)
    (join : String → String → String) (base : String) (links : List String) :
    (extract_hero_products fetch join base links).length ≤ 6 ∧
    (heroLoop fetch join base links []).1.length ≤ 10 ∧
    ((∀ u, fetch u = none) →
      (heroFetchTrace fetch join base links).length =
        (links.filter (fun href => isSubstrS "/products/" href)).length) := by
  refine ⟨?_, heroLoop_collected_le fetch join base links [] (by simp), ?_⟩
  · exact List.length_take_le 6 _
  · intro hf
    exact heroLoop_trace_all_fail fetch join base hf links [] (by simp)

/-- C7 witness: the amended statement evaluated with an always-failing fetch
on a concrete link list. -/
theorem c7_hero_caps_witness :
    (heroFetchTrace (fun _ => none) (fun _ h => h) "https://s.com"
        ["/products/x", "y"]).length =
      ((["/products/x", "y"] : List String).filter
        (fun href => isSubstrS "/products/" href)).length :=
  (c7_hero_caps (fun _ => none) (fun _ h => h) "https://s.com" ["/products/x", "y"]).2.2
    (fun _ => rfl)

/-- C1 counterexample: when the brand-info sub-step raises, `scrape_store`
does not catch it — the scrape aborts with the error instead of returning a
profile, because the `try/except` in `scrape_store` re-raises. -/
theorem c1_substep_exception_aborts :
    scrape_store
      { accessOk := true
        join := fun _ h => h
        brandStep := fun _ => .error "boom"
        catalogFetch := some (.ok [])
        heroStep := fun s => .ok s
        policiesStep := fun s => .ok s
        faqsStep := fun s => .ok s
        socialStep := fun s => .ok s
        contactStep := fun s => .ok s
        linksStep := fun s => .ok s } "https://s.com" = .error "boom" := by
  rfl

/-- C1 (amended): only the catalog sub-step is fault-tolerant — when the
`/products.json` body fails to decode, the exception is swallowed, the
insights pass through the catalog step unchanged, and all remaining sub-steps
still run, so `scrape_store` returns the final profile. -/
theorem c1_catalog_fault_tolerant (env : ScrapeEnv) (url e : String)
    (s1 s3 s4 s5 s6 s7 s8 : BrandInsights)
    (hacc : env.accessOk = true)
    (hcat : env.catalogFetch = some (.error e))
    (hb : env.brandStep { website_url := url } = .ok s1)
    (hh : env.heroStep s1 = .ok s3)
    (hp : env.policiesStep s3 = .ok s4)
    (hf : env.faqsStep s4 = .ok s5)
    (hs : env.socialStep s5 = .ok s6)
    (hc : env.contactStep s6 = .ok s7)
    (hl : env.linksStep s7 = .ok s8) :
    scrape_store env url = .ok s8 ∧
      extract_product_catalog env.join env.catalogFetch url s1 = s1 := by
  have hcat' : extract_product_catalog env.join env.catalogFetch url s1 = s1 := by
    rw [hcat]
    rfl
  refine ⟨?_, hcat'⟩
  rw [scrape_store, hacc]
  simp only [Bool.not_true, Bool.false_eq_true, if_false, bind, Except.bind, hb, hcat', hh,
    hp, hf, hs, hc, hl]

/-- The concrete environment for the C1 witness: access succeeds, the
brand-info sub-step writes a name, the catalog JSON decode raises, every
other sub-step passes the insights through. -/
def envCatalogFail : ScrapeEnv :=
  { accessOk := true
    join := fun _ h => h
    brandStep := fun s => .ok { s with brand_name := some "Acme" }
    catalogFetch := some (.error "invalid json")
    heroStep := fun s => .ok s
    policiesStep := fun s => .ok s
    faqsStep := fun s => .ok s
    socialStep := fun s => .ok s
    contactStep := fun s => .ok s
    linksStep := fun s => .ok s }

/-- C1 witness: the amended statement at the concrete environment. -/
theorem c1_catalog_fault_tolerant_witness :
    scrape_store envCatalogFail "https://s.com" =
        .ok { website_url := "https://s.com", brand_name := some "Acme" } ∧
      extract_product_catalog envCatalogFail.join envCatalogFail.catalogFetch "https://s.com"
          { website_url := "https://s.com", brand_name := some "Acme" } =
        { website_url := "https://s.com", brand_name := some "Acme" } :=
  c1_catalog_fault_tolerant envCatalogFail "https://s.com" "invalid json"
    { website_url := "https://s.com", brand_name := some "Acme" }
    { website_url := "https://s.com", brand_name := some "Acme" }
    { website_url := "https://s.com", brand_name := some "Acme" }
    { website_url := "https://s.com", brand_name := some "Acme" }
    { website_url := "https://s.com", brand_name := some "Acme" }
    { website_url := "https://s.com", brand_name := some "Acme" }
    { website_url := "https://s.com", brand_name := some "Acme" }
    rfl rfl rfl rfl rfl rfl rfl rfl rfl

/-- FAQ deduplication keeps a first-seen-order sublist of its input. -/
theorem dedupFaqs_sublist :
    ∀ (raw : List FAQ) (seen : List String), List.Sublist (dedupFaqs raw seen) raw := by
  intro raw
  induction raw with
  | nil => intro seen; simp [dedupFaqs]
  | cons f rest ih =>
    intro seen
    rw [dedupFaqs]
    by_cases hc : normQuestion f.question ∈ seen
    · rw [if_pos hc]
      exact (ih seen).cons f
    · rw [if_neg hc]
      exact (ih _).cons₂ f

/-- Every FAQ surviving deduplication has a normalized question outside the
seen set. -/
theorem dedupFaqs_mem_not_seen :
    ∀ (raw : List FAQ) (seen : List String) (f : FAQ),
      f ∈ dedupFaqs raw seen → normQuestion f.question ∉ seen := by
  intro raw
  induction raw with
  | nil => intro seen f hm; simp [dedupFaqs] at hm
  | cons g rest ih =>
    intro seen f hm
    rw [dedupFaqs] at hm
    by_cases hc : normQuestion g.question ∈ seen
    · rw [if_pos hc] at hm
      exact ih seen f hm
    · rw [if_neg hc] at hm
      rcases List.mem_cons.mp hm with rfl | hm2
      · exact hc
      · have hrec := ih (normQuestion g.question :: seen) f hm2
        intro hin
        exact hrec (List.mem_cons_of_mem _ hin)

/-- Deduplication output has pairwise distinct normalized questions. -/
theorem dedupFaqs_pairwise :
    ∀ (raw : List FAQ) (seen : List String),
      (dedupFaqs raw seen).Pairwise
        (fun a b => normQuestion a.question ≠ normQuestion b.question) := by
  intro raw
  induction raw with
  | nil => intro seen; simp [dedupFaqs]
  | cons f rest ih =>
    intro seen
    rw [dedupFaqs]
    by_cases hc : normQuestion f.question ∈ seen
    · rw [if_pos hc]
      exact ih seen
    · rw [if_neg hc]
      refine List.Pairwise.cons ?_ (ih _)
      intro b hb heq
      have hns := dedupFaqs_mem_not_seen rest _ b hb
      exact hns (by rw [← heq]; exact List.mem_cons_self _ _)

/-- The FAQ page loop returns either nothing or the deduplicated parse of one
page. -/
theorem faqPagesLoop_cases :
    ∀ pages : List (Option (List FAQ)),
      faqPagesLoop pages = [] ∨ ∃ raw, faqPagesLoop pages = parse_faq_page raw := by
  intro pages
  induction pages with
  | nil => exact Or.inl rfl
  | cons pg rest ih =>
    cases pg with
    | none => simpa only [faqPagesLoop] using ih
    | some raw =>
      simp only [faqPagesLoop]
      by_cases hpf : parse_faq_page raw = []
      · rw [if_pos hpf]
        exact ih
      · rw [if_neg hpf]
        exact Or.inr ⟨raw, rfl⟩

/-- The extractor output is the 10-truncation of either nothing or one
deduplicated page parse. -/
theorem extract_faqs_shape (pages : List (Option (List FAQ)))
    (main : Option (List FAQ)) :
    extract_faqs pages main = [] ∨
      ∃ raw, extract_faqs pages main = (parse_faq_page raw).take 10 := by
  by_cases he2 : faqPagesLoop pages = []
  · simp only [extract_faqs, he2, if_pos]
    cases main with
    | none => exact Or.inl rfl
    | some raw2 => exact Or.inr ⟨raw2, rfl⟩
  · rcases faqPagesLoop_cases pages with he | ⟨raw, hr⟩
    · exact absurd he he2
    · have hne : parse_faq_page raw ≠ [] := by rw [← hr]; exact he2
      exact Or.inr ⟨raw, by simp only [extract_faqs, hr, if_neg hne]⟩

/-- C8: the FAQ extractor never returns more than 10 FAQs, never two FAQs
with the same normalized (lower-cased, whitespace-collapsed) question, and
the deduplication — applied before the truncation to 10 — preserves
first-seen order (its output is an order-preserving sublist of its input). -/
theorem c8_extract_faqs_invariants (pages : List (Option (List FAQ)))
    (main : Option (List FAQ)) :
    (extract_faqs pages main).length ≤ 10 ∧
    (extract_faqs pages main).Pairwise
      (fun a b => normQuestion a.question ≠ normQuestion b.question) ∧
    ∀ raw : List FAQ, List.Sublist (parse_faq_page raw) raw := by
  refine ⟨?_, ?_, fun raw => dedupFaqs_sublist raw []⟩
  · rcases extract_faqs_shape pages main with he | ⟨raw, hr⟩
    · rw [he]; simp
    · rw [hr]; exact List.length_take_le 10 _
  · rcases extract_faqs_shape pages main with he | ⟨raw, hr⟩
    · rw [he]; simp
    · rw [hr]
      exact List.Pairwise.sublist (List.take_sublist _ _) (dedupFaqs_pairwise raw [])

/-- Entity removal leaves a `&`-free string unchanged, at any fuel. -/
theorem removeEntitiesF_no_amp :
    ∀ (fuel : Nat) (cs : List Char), (∀ c ∈ cs, c ≠ '&') →
      removeEntitiesF fuel cs = cs := by
  intro fuel
  induction fuel with
  | zero => intro cs _; rfl
  | succ n ih =>
    intro cs h
    cases cs with
    | nil => rfl
    | cons c cs' =>
      have hc : c ≠ '&' := h c (by simp)
      rw [removeEntitiesF, if_neg (fun hco => hc hco.1),
        ih cs' (fun d hd => h d (by simp [hd]))]

/-- Splitting consumes a whitespace-free chunk into the accumulator. -/
theorem splitWsAcc_nonspace_append :
    ∀ (w acc cs : List Char), (∀ c ∈ w, isPySpace c = false) →
      splitWsAcc acc (w ++ cs) = splitWsAcc (w.reverse ++ acc) cs := by
  intro w
  induction w with
  | nil => intro acc cs _; simp
  | cons c w' ih =>
    intro acc cs h
    have hc : isPySpace c = false := h c (by simp)
    rw [List.cons_append, splitWsAcc, if_neg (by simp [hc]),
      ih (c :: acc) cs (fun d hd => h d (by simp [hd]))]
    simp

/-- The space-join of a singleton. -/
theorem joinWords_singleton (w : List Char) : joinWords [w] = w := rfl

/-- The space-join of two or more words. -/
theorem joinWords_cons_cons (w w2 : List Char) (ws : List (List Char)) :
    joinWords (w :: w2 :: ws) = w ++ ' ' :: joinWords (w2 :: ws) := rfl

/-- Splitting the space-joined form of good words recovers the words. -/
theorem splitWs_joinWords :
    ∀ ws : List (List Char),
      (∀ w ∈ ws, w ≠ [] ∧ ∀ c ∈ w, isPySpace c = false) →
      splitWs (joinWords ws) = ws := by
  intro ws
  induction ws with
  | nil => intro _; rfl
  | cons w ws' ih =>
    intro h
    have hw := h w (by simp)
    cases ws' with
    | nil =>
      have happ := splitWsAcc_nonspace_append w [] [] hw.2
      rw [List.append_nil] at happ
      rw [joinWords_singleton, splitWs, happ, splitWsAcc,
        if_neg (by simp [hw.1]), List.append_nil, List.reverse_reverse]
    | cons w2 ws'' =>
      rw [joinWords_cons_cons, splitWs, splitWsAcc_nonspace_append w [] _ hw.2, splitWsAcc,
        if_pos (by decide), if_neg (by simp [hw.1])]
      rw [show splitWsAcc ([] : List Char) (joinWords (w2 :: ws'')) =
            splitWs (joinWords (w2 :: ws'')) from rfl,
        ih (fun w' hw' => h w' (by simp [hw']))]
      simp

/-- Every word produced by splitting is nonempty and whitespace-free (given a
whitespace-free pending accumulator). -/
theorem splitWsAcc_words_good :
    ∀ (cs acc : List Char), (∀ c ∈ acc, isPySpace c = false) →
      ∀ w ∈ splitWsAcc acc cs, w ≠ [] ∧ ∀ c ∈ w, isPySpace c = false := by
  intro cs
  induction cs with
  | nil =>
    intro acc hacc w hw
    rw [splitWsAcc] at hw
    by_cases h0 : acc = []
    · rw [if_pos h0] at hw
      simp at hw
    · rw [if_neg h0] at hw
      have hwe : w = acc.reverse := by simpa using hw
      subst hwe
      refine ⟨by simpa using h0, fun c hc => hacc c (by simpa using hc)⟩
  | cons d cs' ih =>
    intro acc hacc w hw
    rw [splitWsAcc] at hw
    by_cases hsp : isPySpace d = true
    · rw [if_pos hsp] at hw
      by_cases h0 : acc = []
      · rw [if_pos h0] at hw
        exact ih [] (by simp) w hw
      · rw [if_neg h0] at hw
        rcases List.mem_cons.mp hw with hwe | hw2
        · subst hwe
          refine ⟨by simpa using h0, fun c hc => hacc c (by simpa using hc)⟩
        · exact ih [] (by simp) w hw2
    · rw [if_neg hsp] at hw
      refine ih (d :: acc) ?_ w hw
      intro c hc
      rcases List.mem_cons.mp hc with rfl | hc2
      · simpa using hsp
      · exact hacc c hc2

/-- Every character of a split word comes from the accumulator or the
input. -/
theorem splitWsAcc_chars :
    ∀ (cs acc w : List Char), w ∈ splitWsAcc acc cs →
      ∀ c ∈ w, c ∈ acc ∨ c ∈ cs := by
  intro cs
  induction cs with
  | nil =>
    intro acc w hw c hc
    rw [splitWsAcc] at hw
    by_cases h0 : acc = []
    · rw [if_pos h0] at hw
      simp at hw
    · rw [if_neg h0] at hw
      have hwe : w = acc.reverse := by simpa using hw
      subst hwe
      exact Or.inl (by simpa using hc)
  | cons d cs' ih =>
    intro acc w hw c hc
    rw [splitWsAcc] at hw
    by_cases hsp : isPySpace d = true
    · rw [if_pos hsp] at hw
      by_cases h0 : acc = []
      · rw [if_pos h0] at hw
        rcases ih [] w hw c hc with h2 | h2
        · simp at h2
        · exact Or.inr (List.mem_cons_of_mem _ h2)
      · rw [if_neg h0] at hw
        rcases List.mem_cons.mp hw with hwe | hw2
        · subst hwe
          exact Or.inl (by simpa using hc)
        · rcases ih [] w hw2 c hc with h2 | h2
          · simp at h2
          · exact Or.inr (List.mem_cons_of_mem _ h2)
    · rw [if_neg hsp] at hw
      rcases ih (d :: acc) w hw c hc with h2 | h2
      · rcases List.mem_cons.mp h2 with rfl | h3
        · exact Or.inr (List.mem_cons_self _ _)
        · exact Or.inl h3
      · exact Or.inr (List.mem_cons_of_mem _ h2)

/-- Every character of a space-join is a space or comes from some word. -/
theorem joinWords_chars :
    ∀ (ws : List (List Char)) (c : Char), c ∈ joinWords ws →
      c = ' ' ∨ ∃ w ∈ ws, c ∈ w := by
  intro ws
  induction ws with
  | nil => intro c hc; simp [joinWords] at hc
  | cons w ws' ih =>
    intro c hc
    cases ws' with
    | nil =>
      rw [joinWords_singleton] at hc
      exact Or.inr ⟨w, by simp, hc⟩
    | cons w2 ws'' =>
      rw [joinWords_cons_cons] at hc
      rcases List.mem_append.mp hc with h2 | h2
      · exact Or.inr ⟨w, by simp, h2⟩
      · rcases List.mem_cons.mp h2 with rfl | h3
        · exact Or.inl rfl
        · rcases ih c h3 with h4 | ⟨w', hw', hcw⟩
          · exact Or.inl h4
          · exact Or.inr ⟨w', List.mem_cons_of_mem _ hw', hcw⟩

/-- The space-join of a nonempty good word list is nonempty. -/
theorem joinWords_ne_nil :
    ∀ (w : List Char) (ws : List (List Char)), w ≠ [] → joinWords (w :: ws) ≠ [] := by
  intro w ws hw
  cases ws with
  | nil => rw [joinWords_singleton]; exact hw
  | cons w2 ws' =>
    rw [joinWords_cons_cons]
    simp

/-- The first character of a space-join of good words is not whitespace. -/
theorem joinWords_head_nonspace :
    ∀ ws : List (List Char),
      (∀ w ∈ ws, w ≠ [] ∧ ∀ c ∈ w, isPySpace c = false) →
      ∀ c : Char, (joinWords ws).head? = some c → isPySpace c = false := by
  intro ws h c hc
  cases ws with
  | nil => simp [joinWords] at hc
  | cons w ws' =>
    have hw := h w (by simp)
    obtain ⟨x, w'', rfl⟩ : ∃ x w'', w = x :: w'' := by
      cases w with
      | nil => exact absurd rfl hw.1
      | cons x w'' => exact ⟨x, w'', rfl⟩
    have hcx : c = x := by
      cases ws' with
      | nil => rw [joinWords_singleton] at hc; simpa using hc.symm
      | cons w2 ws'' =>
        rw [joinWords_cons_cons, List.cons_append] at hc; simpa using hc.symm
    subst hcx
    exact hw.2 c (by simp)

/-- The last character of a space-join of good words is not whitespace. -/
theorem joinWords_getLast_nonspace :
    ∀ ws : List (List Char),
      (∀ w ∈ ws, w ≠ [] ∧ ∀ c ∈ w, isPySpace c = false) →
      ∀ c : Char, (joinWords ws).getLast? = some c → isPySpace c = false := by
  intro ws
  induction ws with
  | nil => intro _ c hc; simp [joinWords] at hc
  | cons w ws' ih =>
    intro h c hc
    have hw := h w (by simp)
    cases ws' with
    | nil =>
      rw [joinWords_singleton] at hc
      exact hw.2 c (List.mem_of_getLast?_eq_some hc)
    | cons w2 ws'' =>
      rw [joinWords_cons_cons] at hc
      have hne : (' ' :: joinWords (w2 :: ws'')) ≠ [] := by simp
      rw [List.getLast?_append_of_ne_nil w hne] at hc
      have hne2 : joinWords (w2 :: ws'') ≠ [] :=
        joinWords_ne_nil w2 ws'' (h w2 (by simp)).1
      have hc2 : (joinWords (w2 :: ws'')).getLast? = some c := by
        obtain ⟨y, rest, hr⟩ : ∃ y rest, joinWords (w2 :: ws'') = y :: rest := by
          cases hj : joinWords (w2 :: ws'') with
          | nil => exact absurd hj hne2
          | cons y rest => exact ⟨y, rest, rfl⟩
        rw [hr] at hc ⊢
        rw [show (' ' :: y :: rest) = [' '] ++ (y :: rest) from rfl,
          List.getLast?_append_of_ne_nil [' '] (by simp)] at hc
        exact hc
      exact ih (fun w' hw' => h w' (by simp [hw'])) c hc2

/-- Stripping leaves a list whose first and last characters are non-whitespace
unchanged. -/
theorem pyStripL_eq_self (cs : List Char)
    (hh : ∀ c, cs.head? = some c → isPySpace c = false)
    (hl : ∀ c, cs.getLast? = some c → isPySpace c = false) :
    pyStripL cs = cs := by
  have h1 : cs.dropWhile isPySpace = cs := by
    cases cs with
    | nil => rfl
    | cons a t =>
      rw [List.dropWhile_cons, if_neg]
      simp [hh a rfl]
  have h2 : cs.reverse.dropWhile isPySpace = cs.reverse := by
    cases hrev : cs.reverse with
    | nil => rfl
    | cons a t =>
      rw [List.dropWhile_cons, if_neg]
      have ha : cs.getLast? = some a := by
        rw [← List.head?_reverse, hrev]
        rfl
      simp [hl a ha]
  rw [pyStripL, h1, h2, List.reverse_reverse]

/-- Whitespace collapsing is idempotent. -/
theorem collapseWs_idem (cs : List Char) :
    collapseWs (collapseWs cs) = collapseWs cs := by
  have hgood := splitWsAcc_words_good cs [] (by simp)
  rw [show collapseWs (collapseWs cs) =
        joinWords (splitWs (joinWords (splitWs cs))) from rfl,
    splitWs_joinWords (splitWs cs) hgood]
  rfl

/-- On input whose characters are all kept and contain no `&`, `clean_text`
reduces to whitespace collapsing. -/
theorem clean_text_plain (cs : List Char)
    (hamp : ∀ c ∈ cs, c ≠ '&')
    (hkeep : ∀ c ∈ cs, keepChar c = true) :
    clean_text ⟨cs⟩ = ⟨collapseWs cs⟩ := by
  by_cases hnil : cs = []
  · subst hnil
    rfl
  · have hne : (⟨cs⟩ : String) ≠ "" := fun h => hnil (congrArg String.data h)
    rw [clean_text, if_neg hne]
    have hgood := splitWsAcc_words_good cs [] (by simp)
    have hcol : ∀ c ∈ collapseWs cs, c = ' ' ∨ c ∈ cs := by
      intro c hc
      rcases joinWords_chars _ c hc with h2 | ⟨w, hw, hcw⟩
      · exact Or.inl h2
      · rcases splitWsAcc_chars cs [] w hw c hcw with h3 | h3
        · simp at h3
        · exact Or.inr h3
    have hampc : ∀ c ∈ collapseWs cs, c ≠ '&' := by
      intro c hc
      rcases hcol c hc with rfl | h2
      · decide
      · exact hamp c h2
    have hkeepc : ∀ c ∈ collapseWs cs, keepChar c = true := by
      intro c hc
      rcases hcol c hc with rfl | h2
      · decide
      · exact hkeep c h2
    have hstrip : pyStripL (collapseWs cs) = collapseWs cs :=
      pyStripL_eq_self (collapseWs cs) (joinWords_head_nonspace (splitWs cs) hgood)
        (joinWords_getLast_nonspace (splitWs cs) hgood)
    rw [show (String.data ⟨cs⟩) = cs from rfl, removeEntities,
      removeEntitiesF_no_amp _ _ hampc, List.filter_eq_self.mpr hkeepc, hstrip]

/-- C5 counterexample: `clean_text` is not idempotent — removing the HTML
entity in `"a &amp; b"` leaves a double space that only a second pass
collapses. -/
theorem c5_clean_text_not_idempotent :
    clean_text (clean_text "a &amp; b") ≠ clean_text "a &amp; b" := by
  decide

/-- C5 (amended): `clean_text` is idempotent on inputs all of whose characters
are on the allow-list and that contain no `&` (hence no removable HTML
entity); in general a deletion pass can create new whitespace runs (or new
entities) that only a further application cleans up. -/
theorem c5_clean_text_idempotent_on_plain (s : String)
    (hkeep : ∀ c ∈ s.data, keepChar c = true)
    (hamp : ∀ c ∈ s.data, c ≠ '&') :
    clean_text (clean_text s) = clean_text s := by
  have h1 : clean_text s = ⟨collapseWs s.data⟩ := clean_text_plain s.data hamp hkeep
  rw [h1]
  have hcol : ∀ c ∈ collapseWs s.data, c = ' ' ∨ c ∈ s.data := by
    intro c hc
    rcases joinWords_chars _ c hc with h2 | ⟨w, hw, hcw⟩
    · exact Or.inl h2
    · rcases splitWsAcc_chars s.data [] w hw c hcw with h3 | h3
      · simp at h3
      · exact Or.inr h3
  have hamp2 : ∀ c ∈ collapseWs s.data, c ≠ '&' := by
    intro c hc
    rcases hcol c hc with rfl | h2
    · decide
    · exact hamp c h2
  have hkeep2 : ∀ c ∈ collapseWs s.data, keepChar c = true := by
    intro c hc
    rcases hcol c hc with rfl | h2
    · decide
    · exact hkeep c h2
  rw [clean_text_plain (collapseWs s.data) hamp2 hkeep2, collapseWs_idem]

/-- C5 witness: idempotence at a concrete plain input. -/
theorem c5_clean_text_idempotent_witness :
    clean_text (clean_text "Contact  us today!") = clean_text "Contact  us today!" :=
  c5_clean_text_idempotent_on_plain "Contact  us today!" (by decide) (by decide)

end StoreInsights
